import Mathlib

/-!
# Verification of the order placement and pricing engine

Shallow embedding of `place_order` (src/backend/app.py, `/api/orders` POST
handler) of the preorder-food-app repository, together with the database
rows it reads and writes.  Monetary amounts (MySQL DECIMAL, Python
`decimal.Decimal`) are modelled as rationals; timestamps as integers;
SQL NULL as `Option`.  Python truthiness of the relevant values (`None`,
`0`, `""` and `[]` are falsy) is modelled explicitly where the code
relies on it.
-/

namespace PreorderApp

/-- A row of `menu_items` as read by `place_order`
(`SELECT id, price, name, is_available FROM menu_items`). -/
structure MenuItem where
  id : Nat
  price : ℚ
  name : String
  is_available : Bool
  deriving Repr, DecidableEq

/-- One element of the request's `items` list:
`{'menu_item_id': id, 'quantity': qty}`. -/
structure CartLine where
  menu_item_id : Nat
  quantity : ℤ
  deriving Repr, DecidableEq

/-- A row of `coupons` as read by `place_order`
(`SELECT id, code, discount_percentage, discount_fixed, valid_until,
uses_count, max_uses, is_active FROM coupons`). -/
structure Coupon where
  id : Nat
  code : String
  discount_percentage : Option ℚ
  discount_fixed : Option ℚ
  valid_until : Option ℤ
  uses_count : Nat
  max_uses : Option Nat
  is_active : Bool
  deriving Repr, DecidableEq

/-- A row of `orders` as inserted by `place_order`
(`INSERT INTO orders (student_id, total_amount, coupon_code,
discount_amount, final_amount, status)`). -/
structure OrderRow where
  id : Nat
  student_id : Nat
  total_amount : ℚ
  coupon_code : Option String
  discount_amount : ℚ
  final_amount : ℚ
  status : String
  deriving Repr, DecidableEq

/-- A row of `order_items` as inserted by `place_order`
(`INSERT INTO order_items (order_id, menu_item_id, quantity,
price_at_order)`). -/
structure OrderLineRow where
  order_id : Nat
  menu_item_id : Nat
  quantity : ℤ
  price_at_order : ℚ
  deriving Repr, DecidableEq

/-- The database state visible to `place_order`.  `next_order_id` models
the AUTO_INCREMENT counter read back through `cursor.lastrowid`. -/
structure DBState where
  menu_items : List MenuItem
  coupons : List Coupon
  orders : List OrderRow
  order_items : List OrderLineRow
  next_order_id : Nat
  deriving Repr, DecidableEq

/-- The JSON body of the request: `student_id`, `items`, optional
`coupon_code` (`data.get` yields `None` for an absent key). -/
structure OrderRequest where
  student_id : Option Nat
  items : Option (List CartLine)
  coupon_code : Option String
  deriving Repr, DecidableEq

/-- The failure responses `place_order` can return. -/
inductive OrderError where
  /-- `'Missing student ID or items'` / `'No items in order'`, HTTP 400. -/
  | missingFields
  /-- `'Menu item with ID {id} not found'`, HTTP 404. -/
  | itemNotFound (id : Nat)
  /-- `'Item "{name}" is currently unavailable'`, HTTP 400. -/
  | itemUnavailable (name : String)
  /-- `'Invalid quantity for item ID {id}'`, HTTP 400. -/
  | invalidQuantity (id : Nat)
  /-- `'Failed to place order'` after `conn.rollback()`, HTTP 500. -/
  | persistenceFailure
  deriving Repr, DecidableEq

/-- Outcome of one `place_order` call. -/
inductive OrderResult where
  | success (order_id : Nat)
  | failure (e : OrderError)
  deriving Repr, DecidableEq

/-- The dictionary `menu_items_db` built from the batched
`SELECT ... WHERE id IN (...)`: lookup of an id among the catalog rows
(ids are a primary key, so at most one row matches). -/
def menuLookup : List MenuItem → Nat → Option MenuItem
  | [], _ => none
  | m :: rest, i => if m.id = i then some m else menuLookup rest i

/-- Data accumulated into `order_items_data` for one cart line. -/
structure LineData where
  menu_item_id : Nat
  quantity : ℤ
  price_at_order : ℚ
  deriving Repr, DecidableEq

/-- The validation loop `for item in items:` of `place_order`: per line,
in source order, check the id resolves (`if not db_item`), then
availability (`if not db_item['is_available']`), then
`if quantity <= 0`; on success accumulate the running total and the
`order_items_data` entry. -/
def processLines (menu : List MenuItem) : List CartLine →
    Except OrderError (ℚ × List LineData)
  | [] => .ok (0, [])
  | l :: rest =>
    match menuLookup menu l.menu_item_id with
    | none => .error (.itemNotFound l.menu_item_id)
    | some db_item =>
      if db_item.is_available = false then
        .error (.itemUnavailable db_item.name)
      else if l.quantity ≤ 0 then
        .error (.invalidQuantity l.menu_item_id)
      else
        match processLines menu rest with
        | .error e => .error e
        | .ok (t, ds) =>
          .ok (db_item.price * (l.quantity : ℚ) + t,
               ⟨l.menu_item_id, l.quantity, db_item.price⟩ :: ds)

/-- Python truthiness of an optional numeric column:
`None` and `0` are falsy. -/
def numTruthy : Option ℚ → Bool
  | none => false
  | some x => x != 0

/-- The coupon lookup
`SELECT ... FROM coupons WHERE code = %s AND is_active = TRUE` with
`fetchone()`: the first stored row matching both conditions. -/
def findActiveCoupon : List Coupon → String → Option Coupon
  | [], _ => none
  | c :: rest, code =>
    if c.code = code ∧ c.is_active = true then some c
    else findActiveCoupon rest code

/-- The two row-level validity checks performed on a fetched coupon:
`valid_until is None or valid_until > now` and
`max_uses is None or uses_count < max_uses`. -/
def couponChecks (c : Coupon) (now : ℤ) : Bool :=
  (match c.valid_until with
   | none => true
   | some t => now < t) &&
  (match c.max_uses with
   | none => true
   | some m => c.uses_count < m)

/-- The discount computation on a valid coupon:
`if coupon['discount_percentage']: ... elif coupon['discount_fixed']: ...`
(Python truthiness: a NULL or zero column skips its branch). -/
def computeDiscount (c : Coupon) (total : ℚ) : ℚ :=
  if numTruthy c.discount_percentage then
    total * ((c.discount_percentage.getD 0) / 100)
  else if numTruthy c.discount_fixed then
    min total (c.discount_fixed.getD 0)
  else 0

/-- The whole `# 2. Apply Coupon` block.  Returns the `coupon_code` value
that will be inserted on the order, the `discount_amount`, and the id of
the coupon whose `uses_count` the code will increment (if any).
`if coupon_code:` is Python truthiness: a `None` or empty-string code
skips the block, leaving the submitted value in `coupon_code` and the
discount at 0. -/
def couponPhase (coupons : List Coupon) (now : ℤ) (code? : Option String)
    (total : ℚ) : Option String × ℚ × Option Nat :=
  match code? with
  | none => (none, 0, none)
  | some code =>
    if code = "" then (some "", 0, none)
    else
      match findActiveCoupon coupons code with
      | none => (none, 0, none)
      | some c =>
        if couponChecks c now then
          (some code, computeDiscount c total, some c.id)
        else (none, 0, none)

/-- `UPDATE coupons SET uses_count = uses_count + 1 WHERE id = %s`. -/
def incrementUses (coupons : List Coupon) (cid : Nat) : List Coupon :=
  coupons.map (fun c =>
    if c.id = cid then { c with uses_count := c.uses_count + 1 } else c)

/-- `place_order`, with the coupon `SELECT` reading from an explicit list
`readCoupons` (for the single-request case this is the current state's
coupon table; separating the read models a transaction whose non-locking
snapshot read can predate a concurrent commit).  `commitOk` models
whether `conn.commit()` succeeds: every write of the handler becomes
visible only through that single commit, and any error path runs
`conn.rollback()`, so a failed call leaves the state untouched. -/
def placeOrderRead (readCoupons : List Coupon) (st : DBState) (now : ℤ)
    (req : OrderRequest) (commitOk : Bool) : OrderResult × DBState :=
  if req.student_id = none ∨ req.student_id = some 0 ∨
     req.items = none ∨ req.items = some [] then
    (.failure .missingFields, st)
  else
    match processLines st.menu_items (req.items.getD []) with
    | .error e => (.failure e, st)
    | .ok (total, lineData) =>
      if commitOk then
        (.success st.next_order_id,
         { st with
           orders := st.orders ++
             [⟨st.next_order_id, req.student_id.getD 0, total,
               (couponPhase readCoupons now req.coupon_code total).1,
               (couponPhase readCoupons now req.coupon_code total).2.1,
               total - (couponPhase readCoupons now req.coupon_code total).2.1,
               "Pending"⟩],
           order_items := st.order_items ++
             lineData.map (fun d =>
               ⟨st.next_order_id, d.menu_item_id, d.quantity, d.price_at_order⟩),
           coupons :=
             match (couponPhase readCoupons now req.coupon_code total).2.2 with
             | none => st.coupons
             | some cid => incrementUses st.coupons cid,
           next_order_id := st.next_order_id + 1 })
      else (.failure .persistenceFailure, st)

/-- One `place_order` call against state `st`: all reads and writes see
`st` (single request, no interleaving). -/
def placeOrder (st : DBState) (now : ℤ) (req : OrderRequest)
    (commitOk : Bool) : OrderResult × DBState :=
  placeOrderRead st.coupons st now req commitOk

/-- Two `place_order` calls, both carrying a coupon code, whose
transactions overlap: each transaction's coupon `SELECT` is a plain
non-locking read (no `FOR UPDATE`, no re-validation at write time), so
when both requests start before either commits, both reads see the
initial coupon table; the two relative
`UPDATE ... SET uses_count = uses_count + 1` writes then apply in commit
order.  This is the interleaving read₁, read₂, write₁+commit₁,
write₂+commit₂. -/
def interleavedPlaceOrders (st : DBState) (now : ℤ)
    (req1 req2 : OrderRequest) :
    OrderResult × OrderResult × DBState :=
  let r1 := placeOrderRead st.coupons st now req1 true
  let r2 := placeOrderRead st.coupons r1.2 now req2 true
  (r1.1, r2.1, r2.2)

/-- The unit price the catalog holds for item `i` (0 if absent; only used
under hypotheses that make every lookup succeed). -/
def lookupPrice (menu : List MenuItem) (i : Nat) : ℚ :=
  ((menuLookup menu i).map MenuItem.price).getD 0

/-- Spec-side formula (§4.1 step 4): `subtotal = Σ (unit_price × quantity)`
over the cart lines, with prices read from the catalog. -/
def cartSubtotal (menu : List MenuItem) (lines : List CartLine) : ℚ :=
  (lines.map (fun l => lookupPrice menu l.menu_item_id * (l.quantity : ℚ))).sum

/-- A cart line that passes all three per-line checks of the validation
loop: its id resolves, the item is available, and the quantity is
positive. -/
def lineOk (menu : List MenuItem) (l : CartLine) : Prop :=
  ∃ m, menuLookup menu l.menu_item_id = some m ∧
    m.is_available = true ∧ 0 < l.quantity

theorem menuLookup_mem {menu : List MenuItem} {i : Nat} {m : MenuItem}
    (h : menuLookup menu i = some m) : m ∈ menu ∧ m.id = i := by
  induction menu with
  | nil => simp [menuLookup] at h
  | cons a rest ih =>
    by_cases ha : a.id = i
    · simp [menuLookup, ha] at h
      simp [← h, ha]
    · simp [menuLookup, ha] at h
      rcases ih h with ⟨h1, h2⟩
      exact ⟨List.mem_cons_of_mem _ h1, h2⟩

theorem findActiveCoupon_mem {coupons : List Coupon} {code : String}
    {c : Coupon} (h : findActiveCoupon coupons code = some c) :
    c ∈ coupons ∧ c.code = code ∧ c.is_active = true := by
  induction coupons with
  | nil => simp [findActiveCoupon] at h
  | cons a rest ih =>
    by_cases ha : a.code = code ∧ a.is_active = true
    · simp [findActiveCoupon, ha] at h
      simp [← h, ha.1, ha.2]
    · simp [findActiveCoupon, ha] at h
      rcases ih h with ⟨h1, h2⟩
      exact ⟨List.mem_cons_of_mem _ h1, h2⟩

theorem findActiveCoupon_none {coupons : List Coupon} {code : String}
    (h : findActiveCoupon coupons code = none) :
    ∀ c ∈ coupons, c.code = code → c.is_active = false := by
  induction coupons with
  | nil => simp
  | cons a rest ih =>
    by_cases ha : a.code = code ∧ a.is_active = true
    · simp [findActiveCoupon, ha] at h
    · simp [findActiveCoupon, ha] at h
      intro c hc hcode
      rw [List.mem_cons] at hc
      rcases hc with hc | hc
      · subst hc
        rcases Bool.eq_false_or_eq_true c.is_active with hb | hb
        · exact absurd ⟨hcode, hb⟩ ha
        · exact hb
      · exact ih h c hc hcode

theorem findActiveCoupon_of_mem {coupons : List Coupon} {code : String}
    {c : Coupon}
    (huniq : ∀ c₁ ∈ coupons, ∀ c₂ ∈ coupons, c₁.code = c₂.code → c₁ = c₂)
    (hc : c ∈ coupons) (hcode : c.code = code) (hact : c.is_active = true) :
    findActiveCoupon coupons code = some c := by
  induction coupons with
  | nil => simp at hc
  | cons a rest ih =>
    rw [List.mem_cons] at hc
    rcases hc with hc | hc
    · subst hc
      simp [findActiveCoupon, hcode, hact]
    · by_cases ha : a.code = code ∧ a.is_active = true
      · have : a = c := huniq a (List.mem_cons_self a rest) c
          (List.mem_cons_of_mem _ hc) (by rw [ha.1, hcode])
        subst this
        simp [findActiveCoupon, ha]
      · rw [show findActiveCoupon (a :: rest) code =
            findActiveCoupon rest code by simp [findActiveCoupon, ha]]
        exact ih (fun c₁ h₁ c₂ h₂ => huniq c₁ (List.mem_cons_of_mem _ h₁)
          c₂ (List.mem_cons_of_mem _ h₂)) hc

/-- Characterisation of a successful run of the validation loop:
the accumulated total is exactly the spec's `Σ unit_price × quantity`,
`order_items_data` carries one entry per cart line in order (each with
the snapshot price), and every line passed the three checks. -/
theorem processLines_ok_shape (menu : List MenuItem) :
    ∀ (lines : List CartLine) (t : ℚ) (ds : List LineData),
    processLines menu lines = .ok (t, ds) →
    t = cartSubtotal menu lines ∧
    ds = lines.map
      (fun l => ⟨l.menu_item_id, l.quantity, lookupPrice menu l.menu_item_id⟩) ∧
    ∀ l ∈ lines, lineOk menu l := by
  intro lines
  induction lines with
  | nil =>
    intro t ds h
    simp [processLines] at h
    simp [h.1, h.2, cartSubtotal]
  | cons l rest ih =>
    intro t ds h
    cases hm : menuLookup menu l.menu_item_id with
    | none => simp [processLines, hm] at h
    | some m =>
      simp only [processLines, hm] at h
      by_cases hav : m.is_available = false
      · rw [if_pos hav] at h; exact absurd h (by simp)
      · rw [if_neg hav] at h
        by_cases hq : l.quantity ≤ 0
        · rw [if_pos hq] at h; exact absurd h (by simp)
        · rw [if_neg hq] at h
          cases hrest : processLines menu rest with
          | error e => rw [hrest] at h; exact absurd h (by simp)
          | ok p =>
            obtain ⟨t', ds'⟩ := p
            rw [hrest] at h
            simp only [Except.ok.injEq, Prod.mk.injEq] at h
            rcases ih t' ds' hrest with ⟨ht', hds', hok⟩
            refine ⟨?_, ?_, ?_⟩
            · rw [← h.1, ht']
              simp [cartSubtotal, lookupPrice, hm]
            · rw [← h.2, hds']
              simp [lookupPrice, hm]
            · intro x hx
              rw [List.mem_cons] at hx
              rcases hx with hx | hx
              · subst hx
                exact ⟨m, hm, by simpa using hav, by omega⟩
              · exact hok x hx

/-- Each failure of the validation loop leaves the error of the first
offending line.  Stated for a cart split as `pre ++ bad :: rest` with all
of `pre` passing the checks. -/
theorem processLines_first_error (menu : List MenuItem) :
    ∀ (pre : List CartLine) (bad : CartLine) (rest : List CartLine),
    (∀ l ∈ pre, lineOk menu l) →
    (menuLookup menu bad.menu_item_id = none →
      processLines menu (pre ++ bad :: rest) =
        .error (.itemNotFound bad.menu_item_id)) ∧
    (∀ m, menuLookup menu bad.menu_item_id = some m →
      m.is_available = false →
      processLines menu (pre ++ bad :: rest) =
        .error (.itemUnavailable m.name)) ∧
    (∀ m, menuLookup menu bad.menu_item_id = some m →
      m.is_available = true → bad.quantity ≤ 0 →
      processLines menu (pre ++ bad :: rest) =
        .error (.invalidQuantity bad.menu_item_id)) := by
  intro pre
  induction pre with
  | nil =>
    intro bad rest _
    refine ⟨?_, ?_, ?_⟩
    · intro hm; simp [processLines, hm]
    · intro m hm hav; simp [processLines, hm, hav]
    · intro m hm hav hq
      simp [processLines, hm, hav, hq]
  | cons a pre' ih =>
    intro bad rest hok
    have ha := hok a (List.mem_cons_self a pre')
    rcases ha with ⟨ma, hma, hav, hq⟩
    have ih' := ih bad rest (fun l hl => hok l (List.mem_cons_of_mem _ hl))
    have step : ∀ e, processLines menu (pre' ++ bad :: rest) = .error e →
        processLines menu ((a :: pre') ++ bad :: rest) = .error e := by
      intro e he
      have hql : ¬ a.quantity ≤ 0 := by omega
      rw [List.cons_append]
      simp only [processLines, hma]
      rw [if_neg (by simp [hav]), if_neg hql, he]
    exact ⟨fun hm => step _ (ih'.1 hm),
           fun m hm hv => step _ (ih'.2.1 m hm hv),
           fun m hm hv hq' => step _ (ih'.2.2 m hm hv hq')⟩

/-- Subtotal of a cart of positive-quantity lines over nonnegative
catalog prices is nonnegative. -/
theorem cartSubtotal_nonneg (menu : List MenuItem) (lines : List CartLine)
    (hprice : ∀ m ∈ menu, 0 ≤ m.price)
    (hok : ∀ l ∈ lines, lineOk menu l) :
    0 ≤ cartSubtotal menu lines := by
  unfold cartSubtotal
  apply List.sum_nonneg
  intro x hx
  rw [List.mem_map] at hx
  rcases hx with ⟨l, hl, hx⟩
  rcases hok l hl with ⟨m, hm, _, hq⟩
  have hmem := menuLookup_mem hm
  have : 0 ≤ lookupPrice menu l.menu_item_id := by
    rw [lookupPrice, hm]
    exact hprice m hmem.1
  rw [← hx]
  have hq' : (0 : ℚ) ≤ (l.quantity : ℚ) := by exact_mod_cast le_of_lt hq
  exact mul_nonneg this hq'

/-- Bounds on the discount computed from a valid coupon whose stored
columns satisfy the data model (percentage in 0–100, fixed ≥ 0). -/
theorem computeDiscount_bounds (c : Coupon) (total : ℚ)
    (htotal : 0 ≤ total)
    (hp : ∀ p, c.discount_percentage = some p → 0 ≤ p ∧ p ≤ 100)
    (hf : ∀ f, c.discount_fixed = some f → 0 ≤ f) :
    0 ≤ computeDiscount c total ∧ computeDiscount c total ≤ total := by
  unfold computeDiscount
  by_cases h1 : numTruthy c.discount_percentage = true
  · rw [if_pos h1]
    cases hp' : c.discount_percentage with
    | none => rw [hp'] at h1; simp [numTruthy] at h1
    | some p =>
      rcases hp p hp' with ⟨hp0, hp100⟩
      simp only [Option.getD_some]
      constructor
      · exact mul_nonneg htotal (by positivity)
      · calc total * (p / 100) ≤ total * 1 := by
              apply mul_le_mul_of_nonneg_left _ htotal
              rw [div_le_one (by norm_num)]
              exact hp100
          _ = total := mul_one total
  · rw [if_neg h1]
    by_cases h2 : numTruthy c.discount_fixed = true
    · rw [if_pos h2]
      cases hf' : c.discount_fixed with
      | none => rw [hf'] at h2; simp [numTruthy] at h2
      | some f =>
        simp only [Option.getD_some]
        exact ⟨le_min htotal (hf f hf'), min_le_left _ _⟩
    · rw [if_neg h2]
      exact ⟨le_refl 0, htotal⟩

/-- Bounds on the discount chosen by the coupon block, for any request
code, over a coupon table whose rows satisfy the data model. -/
theorem couponPhase_bounds (coupons : List Coupon) (now : ℤ)
    (code? : Option String) (total : ℚ) (htotal : 0 ≤ total)
    (hcoup : ∀ c ∈ coupons,
      (∀ p, c.discount_percentage = some p → 0 ≤ p ∧ p ≤ 100) ∧
      (∀ f, c.discount_fixed = some f → 0 ≤ f)) :
    0 ≤ (couponPhase coupons now code? total).2.1 ∧
    (couponPhase coupons now code? total).2.1 ≤ total := by
  cases code? with
  | none => exact ⟨le_refl 0, htotal⟩
  | some code =>
    simp only [couponPhase]
    by_cases hcode : code = ""
    · rw [if_pos hcode]
      exact ⟨le_refl 0, htotal⟩
    · rw [if_neg hcode]
      cases hfind : findActiveCoupon coupons code with
      | none => exact ⟨le_refl 0, htotal⟩
      | some c =>
        dsimp only
        by_cases hchk : couponChecks c now = true
        · rw [if_pos hchk]
          have hmem := (findActiveCoupon_mem hfind).1
          exact computeDiscount_bounds c total htotal
            (hcoup c hmem).1 (hcoup c hmem).2
        · rw [if_neg hchk]
          exact ⟨le_refl 0, htotal⟩

/-- Spec-side formula (§4.1 step 7): percentage set ⇒
`subtotal × percentage / 100`; fixed set ⇒ `min(subtotal, fixed)`;
neither ⇒ 0. -/
def specDiscount (c : Coupon) (subtotal : ℚ) : ℚ :=
  match c.discount_percentage, c.discount_fixed with
  | some p, _ => subtotal * (p / 100)
  | none, some f => min subtotal f
  | none, none => 0

/-- On a coupon with at most one discount column set (the data model's
mutual exclusivity) and a nonnegative subtotal, the code's
truthiness-guarded computation agrees with the spec formula. -/
theorem computeDiscount_eq_spec (c : Coupon) (total : ℚ)
    (htotal : 0 ≤ total)
    (hexcl : ¬(c.discount_percentage.isSome ∧ c.discount_fixed.isSome)) :
    computeDiscount c total = specDiscount c total := by
  unfold computeDiscount specDiscount numTruthy
  cases hp : c.discount_percentage with
  | some p =>
    have hfn : c.discount_fixed = none := by
      cases hfx : c.discount_fixed with
      | none => rfl
      | some f => exact absurd ⟨by simp [hp], by simp [hfx]⟩ hexcl
    by_cases hp0 : p = 0
    · subst hp0
      simp [hfn]
    · simp [hp0]
  | none =>
    cases hf : c.discount_fixed with
    | none => simp
    | some f =>
      by_cases hf0 : f = 0
      · subst hf0
        simp [min_eq_right htotal]
      · simp [hf0]

/-- The row-level checks as a proposition: not expired and not at its
usage ceiling. -/
theorem couponChecks_iff (c : Coupon) (now : ℤ) :
    couponChecks c now = true ↔
    (c.valid_until = none ∨ ∃ t, c.valid_until = some t ∧ now < t) ∧
    (c.max_uses = none ∨ ∃ m, c.max_uses = some m ∧ c.uses_count < m) := by
  unfold couponChecks
  cases hu : c.valid_until with
  | none =>
    cases hm : c.max_uses with
    | none => simp
    | some m => simp
  | some t =>
    cases hm : c.max_uses with
    | none => simp
    | some m => simp

/-- Case analysis on the coupon block: either a stored active coupon with
the submitted (nonempty) code passed both checks — then the code is
snapshotted, the discount computed from that coupon, and its id marked
for the usage increment — or nothing is applied: zero discount, no
increment, and the order's code column is NULL (or the verbatim empty
string when the submitted code was `""`). -/
theorem couponPhase_cases (coupons : List Coupon) (now : ℤ)
    (code? : Option String) (total : ℚ) :
    (∃ code c, code? = some code ∧ code ≠ "" ∧
      findActiveCoupon coupons code = some c ∧ couponChecks c now = true ∧
      couponPhase coupons now code? total =
        (some code, computeDiscount c total, some c.id)) ∨
    ((couponPhase coupons now code? total).2.1 = 0 ∧
     (couponPhase coupons now code? total).2.2 = none ∧
     ((couponPhase coupons now code? total).1 = none ∨
      (code? = some "" ∧ (couponPhase coupons now code? total).1 = some ""))) := by
  cases code? with
  | none => right; simp [couponPhase]
  | some code =>
    by_cases hcode : code = ""
    · right
      subst hcode
      simp [couponPhase]
    · cases hfind : findActiveCoupon coupons code with
      | none => right; simp [couponPhase, hcode, hfind]
      | some c =>
        by_cases hchk : couponChecks c now = true
        · left
          exact ⟨code, c, rfl, hcode, hfind, hchk,
            by simp [couponPhase, hcode, hfind, hchk]⟩
        · right
          simp [couponPhase, hcode, hfind, hchk]

/-- An unknown or invalid (nonempty) code leaves no trace: NULL code
column, zero discount, no increment. -/
theorem couponPhase_invalid (coupons : List Coupon) (now : ℤ)
    (code : String) (total : ℚ) (hcode : code ≠ "")
    (hinv : findActiveCoupon coupons code = none ∨
      ∃ c, findActiveCoupon coupons code = some c ∧
        couponChecks c now = false) :
    couponPhase coupons now (some code) total = (none, 0, none) := by
  rcases hinv with hfind | ⟨c, hfind, hchk⟩
  · simp [couponPhase, hcode, hfind]
  · simp [couponPhase, hcode, hfind, hchk]

/-- A cart whose every line passes the three checks is accepted by the
validation loop. -/
theorem processLines_ok_of_lineOk (menu : List MenuItem) :
    ∀ (lines : List CartLine), (∀ l ∈ lines, lineOk menu l) →
    ∃ t ds, processLines menu lines = .ok (t, ds) := by
  intro lines
  induction lines with
  | nil => intro _; exact ⟨0, [], rfl⟩
  | cons l rest ih =>
    intro hok
    rcases hok l (List.mem_cons_self l rest) with ⟨m, hm, hav, hq⟩
    rcases ih (fun x hx => hok x (List.mem_cons_of_mem _ hx)) with ⟨t, ds, hrest⟩
    refine ⟨m.price * (l.quantity : ℚ) + t,
      ⟨l.menu_item_id, l.quantity, m.price⟩ :: ds, ?_⟩
    have hql : ¬ l.quantity ≤ 0 := by omega
    simp only [processLines, hm]
    rw [if_neg (by simp [hav]), if_neg hql, hrest]

/-- Characterisation of a successful call: the commit succeeded, the
request was well-formed, the validation loop accepted every line, and
the new state is the old one plus exactly the write set of this order
(header, one line per cart line, optional coupon increment). -/
theorem placeOrderRead_success_shape
    (readCoupons : List Coupon) (st : DBState) (now : ℤ)
    (req : OrderRequest) (commitOk : Bool) (oid : Nat) (st' : DBState)
    (h : placeOrderRead readCoupons st now req commitOk =
      (.success oid, st')) :
    commitOk = true ∧ oid = st.next_order_id ∧
    ∃ sid items total lineData,
      req.student_id = some sid ∧ sid ≠ 0 ∧
      req.items = some items ∧ items ≠ [] ∧
      processLines st.menu_items items = .ok (total, lineData) ∧
      st' = { st with
        orders := st.orders ++
          [⟨oid, sid, total,
            (couponPhase readCoupons now req.coupon_code total).1,
            (couponPhase readCoupons now req.coupon_code total).2.1,
            total - (couponPhase readCoupons now req.coupon_code total).2.1,
            "Pending"⟩],
        order_items := st.order_items ++ lineData.map
          (fun d => ⟨oid, d.menu_item_id, d.quantity, d.price_at_order⟩),
        coupons :=
          match (couponPhase readCoupons now req.coupon_code total).2.2 with
          | none => st.coupons
          | some cid => incrementUses st.coupons cid,
        next_order_id := oid + 1 } := by
  unfold placeOrderRead at h
  by_cases hcond : req.student_id = none ∨ req.student_id = some 0 ∨
      req.items = none ∨ req.items = some []
  · rw [if_pos hcond] at h
    simp at h
  · rw [if_neg hcond] at h
    push_neg at hcond
    obtain ⟨hsid1, hsid2, hitems1, hitems2⟩ := hcond
    obtain ⟨sid, hsid⟩ := Option.ne_none_iff_exists.mp hsid1
    obtain ⟨items, hitems⟩ := Option.ne_none_iff_exists.mp hitems1
    rw [← hsid, ← hitems] at h
    simp only [Option.getD_some] at h
    cases hpl : processLines st.menu_items items with
    | error e => rw [hpl] at h; simp at h
    | ok p =>
      obtain ⟨total, lineData⟩ := p
      rw [hpl] at h
      simp only at h
      cases commitOk with
      | false => simp at h
      | true =>
        simp only [if_true] at h
        rw [Prod.mk.injEq] at h
        obtain ⟨h1, h2⟩ := h
        have hoid : oid = st.next_order_id := by
          cases h1; rfl
        refine ⟨rfl, hoid, sid, items, total, lineData, hsid.symm, ?_, hitems.symm, ?_, hpl, ?_⟩
        · intro hz; exact hsid2 (by rw [← hsid, hz])
        · intro hz; exact hitems2 (by rw [← hitems, hz])
        · rw [← h2, hoid]

/-- Every failing call leaves the database untouched: each validation
error path returns before any write, and a failing commit rolls the
whole write set back. -/
theorem placeOrderRead_failure_state
    (readCoupons : List Coupon) (st : DBState) (now : ℤ)
    (req : OrderRequest) (commitOk : Bool) (e : OrderError) (st' : DBState)
    (h : placeOrderRead readCoupons st now req commitOk =
      (.failure e, st')) :
    st' = st := by
  unfold placeOrderRead at h
  by_cases hcond : req.student_id = none ∨ req.student_id = some 0 ∨
      req.items = none ∨ req.items = some []
  · rw [if_pos hcond] at h
    rw [Prod.mk.injEq] at h
    exact h.2.symm ▸ rfl
  · rw [if_neg hcond] at h
    cases hpl : processLines st.menu_items (req.items.getD []) with
    | error e' =>
      rw [hpl] at h
      simp only at h
      rw [Prod.mk.injEq] at h
      exact h.2.symm ▸ rfl
    | ok p =>
      obtain ⟨total, lineData⟩ := p
      rw [hpl] at h
      simp only at h
      cases commitOk with
      | true => simp at h
      | false =>
        simp only [Bool.false_eq_true, if_false] at h
        rw [Prod.mk.injEq] at h
        exact h.2.symm ▸ rfl

/-! ## Concrete database fixtures used by witnesses and counterexamples -/

/-- A two-item catalog. -/
def menuA : List MenuItem := [⟨1, 20, "burger", true⟩, ⟨2, 5, "fries", true⟩]

/-- One active 10% coupon with one remaining use. -/
def couponsA : List Coupon := [⟨7, "SAVE10", some 10, none, none, 0, some 1, true⟩]

/-- Initial state: catalog and coupon, no orders yet. -/
def stA : DBState := ⟨menuA, couponsA, [], [], 1⟩

/-- A cart of 9 burgers and 4 fries (subtotal 200) with the 10% coupon. -/
def reqA : OrderRequest := ⟨some 3, some [⟨1, 9⟩, ⟨2, 4⟩], some "SAVE10"⟩

/-- The state after placing `reqA` against `stA`. -/
def stA' : DBState :=
  ⟨menuA, [⟨7, "SAVE10", some 10, none, none, 1, some 1, true⟩],
   [⟨1, 3, 200, some "SAVE10", 20, 180, "Pending"⟩],
   [⟨1, 1, 9, 20⟩, ⟨1, 2, 4, 5⟩], 2⟩

/-- Evaluation of the engine on the fixture: subtotal 200, discount 20,
final 180, coupon use consumed. -/
theorem runA : placeOrder stA 0 reqA true = (.success 1, stA') := by
  norm_num +decide [placeOrder, placeOrderRead, processLines, couponPhase,
    findActiveCoupon, couponChecks, computeDiscount, numTruthy, menuLookup,
    incrementUses, menuA, couponsA, stA, reqA, stA']

/-! ## Claim theorems -/

/-- C1: For every successfully placed order (a cart of lines with positive
quantities over available catalog items, with any optional coupon whose
`discount_percentage` is in 0–100 or `discount_fixed` ≥ 0), the recorded
amounts satisfy `final_amount = subtotal_amount − discount_amount` and
`0 ≤ discount_amount ≤ subtotal_amount`, so `final_amount` is never
negative.  (Catalog prices are nonnegative decimals per the data model.) -/
theorem order_amount_invariants
    (st : DBState) (now : ℤ) (req : OrderRequest) (commitOk : Bool)
    (oid : Nat) (st' : DBState)
    (hprice : ∀ m ∈ st.menu_items, 0 ≤ m.price)
    (hcoup : ∀ c ∈ st.coupons,
      (∀ p, c.discount_percentage = some p → 0 ≤ p ∧ p ≤ 100) ∧
      (∀ f, c.discount_fixed = some f → 0 ≤ f))
    (h : placeOrder st now req commitOk = (.success oid, st')) :
    ∃ o : OrderRow, st'.orders = st.orders ++ [o] ∧
      o.final_amount = o.total_amount - o.discount_amount ∧
      0 ≤ o.discount_amount ∧ o.discount_amount ≤ o.total_amount ∧
      0 ≤ o.final_amount := by
  obtain ⟨hc, hoid, sid, items, total, lineData, hsid, hs0, hit, hne, hpl, hst⟩ :=
    placeOrderRead_success_shape st.coupons st now req commitOk oid st' h
  obtain ⟨htot, hld, hok⟩ := processLines_ok_shape st.menu_items items total lineData hpl
  have htotal : 0 ≤ total := by
    rw [htot]; exact cartSubtotal_nonneg _ _ hprice hok
  have hb := couponPhase_bounds st.coupons now req.coupon_code total htotal hcoup
  subst hst
  refine ⟨_, rfl, rfl, hb.1, hb.2, ?_⟩
  simp only
  linarith [hb.2]

/-- Witness for C1 on the fixture run (subtotal 200, discount 20,
final 180). -/
theorem order_amount_invariants_witness :
    ∃ o : OrderRow, stA'.orders = stA.orders ++ [o] ∧
      o.final_amount = o.total_amount - o.discount_amount ∧
      0 ≤ o.discount_amount ∧ o.discount_amount ≤ o.total_amount ∧
      0 ≤ o.final_amount :=
  order_amount_invariants stA 0 reqA true 1 stA'
    (by intro m hm
        simp only [stA, menuA, List.mem_cons, List.not_mem_nil, or_false] at hm
        rcases hm with hm | hm <;> subst hm <;> norm_num)
    (by intro c hc
        simp only [stA, couponsA, List.mem_singleton] at hc
        subst hc
        constructor
        · intro p hp
          simp only [Option.some.injEq] at hp
          subst hp
          norm_num
        · intro f hf
          simp at hf)
    runA

/-- C2: `placeOrder` persists its whole write set atomically: on success,
exactly one Order header, one OrderLine per cart line (each pointing at
the new header), and — when a valid coupon was applied (a nonempty code
snapshotted on the order) — a `uses_count` increment of exactly 1 on that
stored coupon, all become visible together; on any failure, validation or
persistence, the state is exactly the pre-state: no header, no line, no
`uses_count` change. -/
theorem placeOrder_atomicity
    (st : DBState) (now : ℤ) (req : OrderRequest) (commitOk : Bool) :
    (∀ e st', placeOrder st now req commitOk = (.failure e, st') → st' = st) ∧
    (∀ oid st', placeOrder st now req commitOk = (.success oid, st') →
      ∃ o lines,
        st'.orders = st.orders ++ [o] ∧
        st'.order_items = st.order_items ++ lines ∧
        (∀ li ∈ lines, li.order_id = o.id) ∧
        lines.length = (req.items.getD []).length ∧
        ((∃ code c, o.coupon_code = some code ∧ code ≠ "" ∧
            c ∈ st.coupons ∧ c.code = code ∧
            st'.coupons = st.coupons.map (fun x =>
              if x.id = c.id then { x with uses_count := x.uses_count + 1 }
              else x)) ∨
         (st'.coupons = st.coupons ∧
          (o.coupon_code = none ∨ o.coupon_code = some "")))) := by
  constructor
  · intro e st' h
    exact placeOrderRead_failure_state st.coupons st now req commitOk e st' h
  · intro oid st' h
    obtain ⟨hc, hoid, sid, items, total, lineData, hsid, hs0, hit, hne, hpl, hst⟩ :=
      placeOrderRead_success_shape st.coupons st now req commitOk oid st' h
    obtain ⟨htot, hld, hok⟩ := processLines_ok_shape st.menu_items items total lineData hpl
    subst hst
    refine ⟨_, _, rfl, rfl, ?_, ?_, ?_⟩
    · intro li hli
      rw [List.mem_map] at hli
      rcases hli with ⟨d, _, hli⟩
      rw [← hli]
    · rw [List.length_map, hld, List.length_map, hit, Option.getD_some]
    · rcases couponPhase_cases st.coupons now req.coupon_code total with
        ⟨code, c, hcode, hcne, hfind, hchk, hcp⟩ | ⟨_, hnone, hfst⟩
      · left
        refine ⟨code, c, ?_, hcne, (findActiveCoupon_mem hfind).1,
          (findActiveCoupon_mem hfind).2.1, ?_⟩
        · simp only [hcp]
        · simp only [hcp]
          rfl
      · right
        constructor
        · simp only [hnone]
        · rcases hfst with hfst | ⟨_, hfst⟩
          · exact Or.inl hfst
          · exact Or.inr hfst

/-- Witness for C2 on the fixture run: the success branch applied at the
concrete state, with the coupon's single-use increment visible. -/
theorem placeOrder_atomicity_witness :
    ∃ o lines,
      stA'.orders = stA.orders ++ [o] ∧
      stA'.order_items = stA.order_items ++ lines ∧
      (∀ li ∈ lines, li.order_id = o.id) ∧
      lines.length = (reqA.items.getD []).length ∧
      ((∃ code c, o.coupon_code = some code ∧ code ≠ "" ∧
          c ∈ stA.coupons ∧ c.code = code ∧
          stA'.coupons = stA.coupons.map (fun x =>
            if x.id = c.id then { x with uses_count := x.uses_count + 1 }
            else x)) ∨
       (stA'.coupons = stA.coupons ∧
        (o.coupon_code = none ∨ o.coupon_code = some ""))) :=
  (placeOrder_atomicity stA 0 reqA true).2 1 stA' runA

/-- A fixed-amount coupon of 50 over a catalog whose only item costs 30. -/
def couponsB : List Coupon := [⟨8, "FIX50", none, some 50, none, 0, none, true⟩]

/-- Initial state for the fixed-coupon example (subtotal will be 30). -/
def stB : DBState := ⟨[⟨1, 30, "meal", true⟩], couponsB, [], [], 1⟩

/-- One meal with the fixed coupon. -/
def reqB : OrderRequest := ⟨some 4, some [⟨1, 1⟩], some "FIX50"⟩

/-- The state after placing `reqB` against `stB`: the discount is capped
at the subtotal (30), final amount 0. -/
def stB' : DBState :=
  ⟨[⟨1, 30, "meal", true⟩], [⟨8, "FIX50", none, some 50, none, 1, none, true⟩],
   [⟨1, 4, 30, some "FIX50", 30, 0, "Pending"⟩], [⟨1, 1, 1, 30⟩], 2⟩

/-- Evaluation of the engine on the fixed-coupon fixture. -/
theorem runB : placeOrder stB 0 reqB true = (.success 1, stB') := by
  norm_num +decide [placeOrder, placeOrderRead, processLines, couponPhase,
    findActiveCoupon, couponChecks, computeDiscount, numTruthy, menuLookup,
    incrementUses, couponsB, stB, reqB, stB']

/-- C3: when the supplied coupon is valid, the persisted discount is
`subtotal × discount_percentage / 100` if the percentage is set,
`min(subtotal, discount_fixed)` if the fixed amount is set, and 0 if
neither is set (`specDiscount`), with `final = subtotal − discount`.
Hypotheses: nonnegative catalog prices and the data model's mutual
exclusivity of the two discount columns. -/
theorem coupon_discount_formula
    (st : DBState) (now : ℤ) (req : OrderRequest) (commitOk : Bool)
    (oid : Nat) (st' : DBState) (code : String) (c : Coupon)
    (hprice : ∀ m ∈ st.menu_items, 0 ≤ m.price)
    (hcode : req.coupon_code = some code) (hcne : code ≠ "")
    (hfind : findActiveCoupon st.coupons code = some c)
    (hchk : couponChecks c now = true)
    (hexcl : ¬(c.discount_percentage.isSome ∧ c.discount_fixed.isSome))
    (h : placeOrder st now req commitOk = (.success oid, st')) :
    ∃ o : OrderRow, st'.orders = st.orders ++ [o] ∧
      o.discount_amount = specDiscount c o.total_amount ∧
      o.final_amount = o.total_amount - o.discount_amount := by
  obtain ⟨hc, hoid, sid, items, total, lineData, hsid, hs0, hit, hne, hpl, hst⟩ :=
    placeOrderRead_success_shape st.coupons st now req commitOk oid st' h
  obtain ⟨htot, hld, hok⟩ := processLines_ok_shape st.menu_items items total lineData hpl
  have htotal : 0 ≤ total := by
    rw [htot]; exact cartSubtotal_nonneg _ _ hprice hok
  have hcp : couponPhase st.coupons now req.coupon_code total =
      (some code, computeDiscount c total, some c.id) := by
    rw [hcode]
    simp [couponPhase, hcne, hfind, hchk]
  subst hst
  refine ⟨_, rfl, ?_, rfl⟩
  simp only [hcp]
  exact computeDiscount_eq_spec c total htotal hexcl

/-- Witness for C3, covering both spec examples: 10% on subtotal 200
gives discount 20 and final 180; fixed 50 on subtotal 30 gives discount
30 (capped) and final 0. -/
theorem coupon_discount_formula_witness :
    (∃ o : OrderRow, stA'.orders = stA.orders ++ [o] ∧
      o.discount_amount =
        specDiscount ⟨7, "SAVE10", some 10, none, none, 0, some 1, true⟩
          o.total_amount ∧
      o.final_amount = o.total_amount - o.discount_amount) ∧
    (∃ o : OrderRow, stB'.orders = stB.orders ++ [o] ∧
      o.discount_amount =
        specDiscount ⟨8, "FIX50", none, some 50, none, 0, none, true⟩
          o.total_amount ∧
      o.final_amount = o.total_amount - o.discount_amount) :=
  ⟨coupon_discount_formula stA 0 reqA true 1 stA' "SAVE10" _
    (by intro m hm
        simp only [stA, menuA, List.mem_cons, List.not_mem_nil, or_false] at hm
        rcases hm with hm | hm <;> subst hm <;> norm_num)
    rfl (by simp)
    (by simp [stA, couponsA, findActiveCoupon])
    (by simp [couponChecks]) (by simp) runA,
   coupon_discount_formula stB 0 reqB true 1 stB' "FIX50" _
    (by intro m hm
        simp only [stB, List.mem_singleton] at hm
        subst hm
        norm_num)
    rfl (by simp)
    (by simp [stB, couponsB, findActiveCoupon])
    (by simp [couponChecks]) (by simp) runB⟩

/-- C4: a supplied (nonempty) coupon code is applied to a successful
order — snapshotted into its `coupon_code` column — iff the stored coupon
with that code is active AND unexpired (`valid_until` null or `> now`)
AND under its usage ceiling (`max_uses` null or `uses_count < max_uses`);
in particular a coupon at `uses_count = max_uses` contributes no
discount, is not snapshotted, and is not incremented.  Coupon codes are
unique (schema UNIQUE constraint). -/
theorem coupon_applied_iff
    (st : DBState) (now : ℤ) (req : OrderRequest) (commitOk : Bool)
    (oid : Nat) (st' : DBState) (code : String)
    (hcode : req.coupon_code = some code) (hcne : code ≠ "")
    (huniq : ∀ c₁ ∈ st.coupons, ∀ c₂ ∈ st.coupons, c₁.code = c₂.code → c₁ = c₂)
    (h : placeOrder st now req commitOk = (.success oid, st')) :
    ∃ o : OrderRow, st'.orders = st.orders ++ [o] ∧
      (o.coupon_code = some code ↔
        ∃ c ∈ st.coupons, c.code = code ∧ c.is_active = true ∧
          (c.valid_until = none ∨ ∃ t, c.valid_until = some t ∧ now < t) ∧
          (c.max_uses = none ∨ ∃ m, c.max_uses = some m ∧ c.uses_count < m)) ∧
      (∀ c ∈ st.coupons, c.code = code → c.max_uses = some c.uses_count →
        o.discount_amount = 0 ∧ o.coupon_code = none ∧
        st'.coupons = st.coupons) := by
  obtain ⟨hc, hoid, sid, items, total, lineData, hsid, hs0, hit, hne, hpl, hst⟩ :=
    placeOrderRead_success_shape st.coupons st now req commitOk oid st' h
  subst hst
  refine ⟨_, rfl, ?_, ?_⟩
  · constructor
    · intro hcc
      simp only at hcc
      rcases couponPhase_cases st.coupons now req.coupon_code total with
        ⟨code', cpn, hcode', hcne', hfind, hchk, hcp⟩ | ⟨_, _, hfst⟩
      · have hcodes : code' = code := by
          rw [hcode] at hcode'
          exact (Option.some.injEq _ _ ▸ hcode').symm
        subst hcodes
        obtain ⟨hmem, hcodeeq, hact⟩ := findActiveCoupon_mem hfind
        obtain ⟨hvu, hmu⟩ := (couponChecks_iff cpn now).mp hchk
        exact ⟨cpn, hmem, hcodeeq, hact, hvu, hmu⟩
      · rcases hfst with hfst | ⟨hsome, hfst⟩
        · rw [hfst] at hcc
          exact absurd hcc (by simp)
        · rw [hcode] at hsome
          exact absurd (Option.some.injEq _ _ ▸ hsome) hcne
    · intro ⟨c, hmem, hcodeeq, hact, hvu, hmu⟩
      have hfind : findActiveCoupon st.coupons code = some c :=
        findActiveCoupon_of_mem huniq hmem hcodeeq hact
      have hchk : couponChecks c now = true :=
        (couponChecks_iff c now).mpr ⟨hvu, hmu⟩
      simp only [hcode]
      simp [couponPhase, hcne, hfind, hchk]
  · intro c hmem hcodeeq hmax
    have hcp : couponPhase st.coupons now req.coupon_code total =
        (none, 0, none) := by
      rw [hcode]
      apply couponPhase_invalid st.coupons now code total hcne
      cases hfind : findActiveCoupon st.coupons code with
      | none => exact Or.inl rfl
      | some c' =>
        right
        refine ⟨c', rfl, ?_⟩
        obtain ⟨hmem', hcodeeq', _⟩ := findActiveCoupon_mem hfind
        have : c' = c := huniq c' hmem' c hmem (by rw [hcodeeq', hcodeeq])
        subst this
        rcases Bool.eq_false_or_eq_true (couponChecks c' now) with hb | hb
        · obtain ⟨_, hmu⟩ := (couponChecks_iff c' now).mp hb
          rcases hmu with hmu | ⟨m, hm, hlt⟩
          · rw [hmu] at hmax; exact absurd hmax (by simp)
          · rw [hm] at hmax
            have : m = c'.uses_count := by
              simpa using hmax
            omega
        · exact hb
    simp [hcp]

/-- Witness for C4 on the fixture run: the 10% coupon is active,
unexpired and under its ceiling, and indeed applied. -/
theorem coupon_applied_iff_witness :
    ∃ o : OrderRow, stA'.orders = stA.orders ++ [o] ∧
      (o.coupon_code = some "SAVE10" ↔
        ∃ c ∈ stA.coupons, c.code = "SAVE10" ∧ c.is_active = true ∧
          (c.valid_until = none ∨ ∃ t, c.valid_until = some t ∧ (0:ℤ) < t) ∧
          (c.max_uses = none ∨ ∃ m, c.max_uses = some m ∧ c.uses_count < m)) ∧
      (∀ c ∈ stA.coupons, c.code = "SAVE10" → c.max_uses = some c.uses_count →
        o.discount_amount = 0 ∧ o.coupon_code = none ∧
        stA'.coupons = stA.coupons) :=
  coupon_applied_iff stA 0 reqA true 1 stA' "SAVE10" rfl (by simp)
    (by intro c₁ h₁ c₂ h₂ _
        simp only [stA, couponsA, List.mem_singleton] at h₁ h₂
        rw [h₁, h₂])
    runA

/-- C5: for every cart that passes item validation, supplying a coupon
code that is unknown (no active row), or whose row fails the
validity checks, is not an error: the order is still placed, with zero
discount, `final = subtotal`, and a NULL code snapshot. -/
theorem invalid_coupon_silent_degrade
    (st : DBState) (now : ℤ) (req : OrderRequest)
    (sid : Nat) (items : List CartLine) (code : String)
    (hsid : req.student_id = some sid) (hs0 : sid ≠ 0)
    (hitems : req.items = some items) (hne : items ≠ [])
    (hok : ∀ l ∈ items, lineOk st.menu_items l)
    (hcode : req.coupon_code = some code) (hcne : code ≠ "")
    (hinv : findActiveCoupon st.coupons code = none ∨
      ∃ c, findActiveCoupon st.coupons code = some c ∧
        couponChecks c now = false) :
    ∃ (st' : DBState) (o : OrderRow),
      placeOrder st now req true = (.success st.next_order_id, st') ∧
      st'.orders = st.orders ++ [o] ∧
      o.discount_amount = 0 ∧ o.final_amount = o.total_amount ∧
      o.coupon_code = none := by
  have hif : ¬(req.student_id = none ∨ req.student_id = some 0 ∨
      req.items = none ∨ req.items = some []) := by
    push_neg
    refine ⟨by simp [hsid], by simp [hsid, hs0], by simp [hitems],
      by simp [hitems, hne]⟩
  obtain ⟨t, ds, hpl⟩ := processLines_ok_of_lineOk st.menu_items items hok
  have hcp : couponPhase st.coupons now req.coupon_code t = (none, 0, none) := by
    rw [hcode]
    exact couponPhase_invalid st.coupons now code t hcne hinv
  refine ⟨{ st with
      orders := st.orders ++ [⟨st.next_order_id, req.student_id.getD 0, t,
        none, 0, t - 0, "Pending"⟩],
      order_items := st.order_items ++ ds.map (fun d =>
        ⟨st.next_order_id, d.menu_item_id, d.quantity, d.price_at_order⟩),
      next_order_id := st.next_order_id + 1 },
    ⟨st.next_order_id, req.student_id.getD 0, t, none, 0, t - 0, "Pending"⟩,
    ?_, rfl, rfl, by simp, rfl⟩
  unfold placeOrder placeOrderRead
  rw [if_neg hif, hitems]
  simp only [Option.getD_some]
  rw [hpl]
  simp only [hcp, if_true]

/-- An unknown coupon code over the fixture catalog. -/
def reqE : OrderRequest := ⟨some 3, some [⟨1, 2⟩], some "NOPE"⟩

/-- Witness for C5: the fixture cart with an unknown code succeeds with
zero discount. -/
theorem invalid_coupon_silent_degrade_witness :
    ∃ (st' : DBState) (o : OrderRow),
      placeOrder stA 0 reqE true = (.success stA.next_order_id, st') ∧
      st'.orders = stA.orders ++ [o] ∧
      o.discount_amount = 0 ∧ o.final_amount = o.total_amount ∧
      o.coupon_code = none :=
  invalid_coupon_silent_degrade stA 0 reqE 3 [⟨1, 2⟩] "NOPE"
    rfl (by simp) rfl (by simp)
    (by intro l hl
        simp only [List.mem_singleton] at hl
        subst hl
        exact ⟨⟨1, 20, "burger", true⟩, by simp [stA, menuA, menuLookup],
          rfl, by norm_num⟩)
    rfl (by simp)
    (Or.inl (by simp [stA, couponsA, findActiveCoupon]))

/-- C6: for every successful order, the persisted subtotal is
`Σ unit_price × quantity` over the cart lines with prices read from the
catalog at order time, and every cart line — duplicates included —
yields its own OrderLine row pointing at the new header and carrying the
unit-price snapshot. -/
theorem subtotal_and_line_snapshots
    (st : DBState) (now : ℤ) (req : OrderRequest) (commitOk : Bool)
    (oid : Nat) (st' : DBState) (items : List CartLine)
    (hitems : req.items = some items)
    (h : placeOrder st now req commitOk = (.success oid, st')) :
    ∃ o : OrderRow, st'.orders = st.orders ++ [o] ∧
      o.total_amount = cartSubtotal st.menu_items items ∧
      st'.order_items = st.order_items ++ items.map (fun l =>
        ⟨o.id, l.menu_item_id, l.quantity,
         lookupPrice st.menu_items l.menu_item_id⟩) := by
  obtain ⟨hc, hoid, sid, items', total, lineData, hsid, hs0, hit, hne, hpl, hst⟩ :=
    placeOrderRead_success_shape st.coupons st now req commitOk oid st' h
  have hii : items' = items := by
    rw [hitems] at hit
    exact (Option.some.injEq _ _ ▸ hit.symm)
  rw [hii] at hpl
  obtain ⟨htot, hld, hok⟩ := processLines_ok_shape st.menu_items items total lineData hpl
  subst hst
  refine ⟨_, rfl, htot, ?_⟩
  simp only
  rw [hld, List.map_map]
  rfl

/-- Witness for C6 on the fixture run: subtotal 200 = 20·9 + 5·4, and
both cart lines produce their own snapshot rows. -/
theorem subtotal_and_line_snapshots_witness :
    ∃ o : OrderRow, stA'.orders = stA.orders ++ [o] ∧
      o.total_amount = cartSubtotal stA.menu_items [⟨1, 9⟩, ⟨2, 4⟩] ∧
      stA'.order_items = stA.order_items ++
        ([⟨1, 9⟩, ⟨2, 4⟩] : List CartLine).map (fun l =>
          ⟨o.id, l.menu_item_id, l.quantity,
           lookupPrice stA.menu_items l.menu_item_id⟩) :=
  subtotal_and_line_snapshots stA 0 reqA true 1 stA' [⟨1, 9⟩, ⟨2, 4⟩] rfl runA

/-- C7: an order whose first offending cart line references an id absent
from the catalog fails with `ItemNotFound` naming that id, and one whose
first offending line resolves to an unavailable item fails with
`ItemUnavailable` naming it; in both cases the returned state is exactly
the pre-state — zero Order rows, zero OrderLine rows, no coupon usage
consumed.  (`pre` are the lines before the offending one; each passes
the per-line checks.) -/
theorem item_validation_failures
    (st : DBState) (now : ℤ) (req : OrderRequest) (commitOk : Bool)
    (pre : List CartLine) (bad : CartLine) (rest : List CartLine)
    (hsid1 : req.student_id ≠ none) (hsid2 : req.student_id ≠ some 0)
    (hitems : req.items = some (pre ++ bad :: rest))
    (hpre : ∀ l ∈ pre, lineOk st.menu_items l) :
    (menuLookup st.menu_items bad.menu_item_id = none →
      placeOrder st now req commitOk =
        (.failure (.itemNotFound bad.menu_item_id), st)) ∧
    (∀ m, menuLookup st.menu_items bad.menu_item_id = some m →
      m.is_available = false →
      placeOrder st now req commitOk =
        (.failure (.itemUnavailable m.name), st)) ∧
    (menuLookup st.menu_items bad.menu_item_id = none →
      ∀ oid st', placeOrder st now req commitOk ≠ (.success oid, st')) := by
  have hif : ¬(req.student_id = none ∨ req.student_id = some 0 ∨
      req.items = none ∨ req.items = some []) := by
    push_neg
    exact ⟨hsid1, hsid2, by simp [hitems], by simp [hitems]⟩
  obtain ⟨hnf, hunav, _⟩ :=
    processLines_first_error st.menu_items pre bad rest hpre
  refine ⟨?_, ?_, ?_⟩
  · intro hm
    unfold placeOrder placeOrderRead
    rw [if_neg hif, hitems]
    simp only [Option.getD_some]
    rw [hnf hm]
  · intro m hm hav
    unfold placeOrder placeOrderRead
    rw [if_neg hif, hitems]
    simp only [Option.getD_some]
    rw [hunav m hm hav]
  · intro hm oid st' hsucc
    obtain ⟨_, _, sid, items', total, lineData, _, _, hit, _, hpl, _⟩ :=
      placeOrderRead_success_shape st.coupons st now req commitOk oid st' hsucc
    have hii : items' = pre ++ bad :: rest := by
      rw [hitems] at hit
      exact (Option.some.injEq _ _ ▸ hit.symm)
    rw [hii] at hpl
    obtain ⟨_, _, hok⟩ := processLines_ok_shape st.menu_items _ total lineData hpl
    obtain ⟨m, hm', _, _⟩ := hok bad (by simp)
    rw [hm] at hm'
    exact absurd hm' (by simp)

/-- Witness for C7: a cart referencing the unknown id 99 is rejected
with `ItemNotFound 99` and the state is untouched. -/
theorem item_validation_failures_witness :
    placeOrder stA 0 ⟨some 3, some [⟨99, 1⟩], none⟩ true =
      (.failure (.itemNotFound 99), stA) :=
  (item_validation_failures stA 0 ⟨some 3, some [⟨99, 1⟩], none⟩ true
    [] ⟨99, 1⟩ [] (by simp) (by simp) rfl (by simp)).1
    (by simp [stA, menuA, menuLookup])

/-- C8 counterexample: the per-line checks resolve the item BEFORE
examining the quantity, so a line whose id 99 is unknown and whose
quantity is 0 is rejected as `ItemNotFound 99`, not as an invalid
quantity (the claim's `InvalidRequest`). -/
theorem quantity_check_ordering_counterexample :
    placeOrder stA 0 ⟨some 3, some [⟨99, 0⟩], none⟩ true =
      (.failure (.itemNotFound 99), stA) ∧
    (placeOrder stA 0 ⟨some 3, some [⟨99, 0⟩], none⟩ true).1 ≠
      .failure (.invalidQuantity 99) := by
  have h : placeOrder stA 0 ⟨some 3, some [⟨99, 0⟩], none⟩ true =
      (.failure (.itemNotFound 99), stA) := by
    norm_num +decide [placeOrder, placeOrderRead, processLines, menuLookup,
      stA, menuA]
  exact ⟨h, by rw [h]; simp⟩

/-- C8 (amended): a cart line with zero or negative quantity on a known,
available item makes `placeOrder` fail with the invalid-quantity error
naming that item id and persist nothing; however, the per-line
resolution and availability checks precede the quantity check, so a line
with both an invalid quantity and an unknown item id yields
`ItemNotFound`, not the invalid-quantity error. -/
theorem invalid_quantity_rejected
    (st : DBState) (now : ℤ) (req : OrderRequest) (commitOk : Bool)
    (pre : List CartLine) (bad : CartLine) (rest : List CartLine)
    (hsid1 : req.student_id ≠ none) (hsid2 : req.student_id ≠ some 0)
    (hitems : req.items = some (pre ++ bad :: rest))
    (hpre : ∀ l ∈ pre, lineOk st.menu_items l)
    (hq : bad.quantity ≤ 0) :
    (∀ m, menuLookup st.menu_items bad.menu_item_id = some m →
      m.is_available = true →
      placeOrder st now req commitOk =
        (.failure (.invalidQuantity bad.menu_item_id), st)) ∧
    (menuLookup st.menu_items bad.menu_item_id = none →
      placeOrder st now req commitOk =
        (.failure (.itemNotFound bad.menu_item_id), st)) := by
  have hif : ¬(req.student_id = none ∨ req.student_id = some 0 ∨
      req.items = none ∨ req.items = some []) := by
    push_neg
    exact ⟨hsid1, hsid2, by simp [hitems], by simp [hitems]⟩
  obtain ⟨hnf, _, hiq⟩ :=
    processLines_first_error st.menu_items pre bad rest hpre
  constructor
  · intro m hm hav
    unfold placeOrder placeOrderRead
    rw [if_neg hif, hitems]
    simp only [Option.getD_some]
    rw [hiq m hm hav hq]
  · intro hm
    unfold placeOrder placeOrderRead
    rw [if_neg hif, hitems]
    simp only [Option.getD_some]
    rw [hnf hm]

/-- Witness for the amended C8: quantity 0 on the known, available item
1 is rejected with the invalid-quantity error and no persistence. -/
theorem invalid_quantity_rejected_witness :
    placeOrder stA 0 ⟨some 3, some [⟨1, 0⟩], none⟩ true =
      (.failure (.invalidQuantity 1), stA) :=
  (invalid_quantity_rejected stA 0 ⟨some 3, some [⟨1, 0⟩], none⟩ true
    [] ⟨1, 0⟩ [] (by simp) (by simp) rfl (by simp) (by norm_num)).1
    ⟨1, 20, "burger", true⟩ (by simp [stA, menuA, menuLookup]) rfl

/-- Catalog and single-use coupon for the concurrency scenario. -/
def stC : DBState :=
  ⟨[⟨1, 200, "meal", true⟩],
   [⟨9, "ONCE", some 10, none, none, 0, some 1, true⟩], [], [], 1⟩

/-- A cart of one meal carrying the single-use coupon. -/
def reqC : OrderRequest := ⟨some 5, some [⟨1, 1⟩], some "ONCE"⟩

/-- C9: two overlapping `place_order` transactions that both read the
coupon table before either commits (the handler's plain `SELECT` takes
no lock and nothing re-validates at write time) BOTH pass the
`uses_count < max_uses` check against the single-use coupon: both
persisted orders carry the 10% discount and `uses_count` ends at 2,
past `max_uses = 1` — the ceiling the claim (and §5 of the spec)
requires is not enforced. -/
theorem coupon_race_both_apply :
    interleavedPlaceOrders stC 0 reqC reqC =
      (.success 1, .success 2,
       ⟨[⟨1, 200, "meal", true⟩],
        [⟨9, "ONCE", some 10, none, none, 2, some 1, true⟩],
        [⟨1, 5, 200, some "ONCE", 20, 180, "Pending"⟩,
         ⟨2, 5, 200, some "ONCE", 20, 180, "Pending"⟩],
        [⟨1, 1, 1, 200⟩, ⟨2, 1, 1, 200⟩], 3⟩) ∧
    ((interleavedPlaceOrders stC 0 reqC reqC).2.2.orders.map
      OrderRow.discount_amount) = [20, 20] ∧
    ((interleavedPlaceOrders stC 0 reqC reqC).2.2.coupons.map
      Coupon.uses_count) = [2] := by
  have h : interleavedPlaceOrders stC 0 reqC reqC =
      (.success 1, .success 2,
       ⟨[⟨1, 200, "meal", true⟩],
        [⟨9, "ONCE", some 10, none, none, 2, some 1, true⟩],
        [⟨1, 5, 200, some "ONCE", 20, 180, "Pending"⟩,
         ⟨2, 5, 200, some "ONCE", 20, 180, "Pending"⟩],
        [⟨1, 1, 1, 200⟩, ⟨2, 1, 1, 200⟩], 3⟩) := by
    norm_num +decide [interleavedPlaceOrders, placeOrder, placeOrderRead,
      processLines, couponPhase, findActiveCoupon, couponChecks,
      computeDiscount, numTruthy, menuLookup, incrementUses, stC, reqC]
  refine ⟨h, ?_, ?_⟩ <;> rw [h] <;> norm_num

/-- The fixture request submitting the empty string as coupon code. -/
def reqD : OrderRequest := ⟨some 3, some [⟨1, 1⟩], some ""⟩

/-- C10 counterexample: a submitted empty-string coupon code is falsy in
the handler, so the coupon block never runs and the INSERT receives the
submitted `""` verbatim: the persisted order carries the non-NULL code
`""` although no coupon discount was applied (discount 0). -/
theorem empty_code_persisted_counterexample :
    ((placeOrder stA 0 reqD true).2.orders.map
      (fun o => (o.coupon_code, o.discount_amount))) = [(some "", 0)] ∧
    (some "" : Option String) ≠ none := by
  have h : placeOrder stA 0 reqD true =
      (.success 1,
       ⟨menuA, couponsA, [⟨1, 3, 20, some "", 0, 20, "Pending"⟩],
        [⟨1, 1, 1, 20⟩], 2⟩) := by
    norm_num +decide [placeOrder, placeOrderRead, processLines, couponPhase,
      findActiveCoupon, couponChecks, computeDiscount, numTruthy, menuLookup,
      incrementUses, stA, menuA, couponsA, reqD]
  refine ⟨?_, by simp⟩
  rw [h]
  norm_num

/-- C10 (amended): for a NONEMPTY supplied coupon code, the claim holds:
if the code is unknown or the coupon fails the validity checks, the
persisted order's `coupon_code` is NULL; and a non-null code appears on
the order only when it equals the submitted code, that coupon was found
active and valid, and the order's discount is exactly the one computed
from that coupon.  (An empty-string code is persisted verbatim without
any lookup — the counterexample.) -/
theorem coupon_code_snapshot
    (st : DBState) (now : ℤ) (req : OrderRequest) (commitOk : Bool)
    (oid : Nat) (st' : DBState) (code : String)
    (hcode : req.coupon_code = some code) (hcne : code ≠ "")
    (h : placeOrder st now req commitOk = (.success oid, st')) :
    ∃ o : OrderRow, st'.orders = st.orders ++ [o] ∧
      ((findActiveCoupon st.coupons code = none ∨
        (∃ c, findActiveCoupon st.coupons code = some c ∧
          couponChecks c now = false)) → o.coupon_code = none) ∧
      (∀ s, o.coupon_code = some s → s = code ∧
        ∃ c, findActiveCoupon st.coupons code = some c ∧
          couponChecks c now = true ∧
          o.discount_amount = computeDiscount c o.total_amount) := by
  obtain ⟨hc, hoid, sid, items, total, lineData, hsid, hs0, hit, hne, hpl, hst⟩ :=
    placeOrderRead_success_shape st.coupons st now req commitOk oid st' h
  subst hst
  refine ⟨_, rfl, ?_, ?_⟩
  · intro hinv
    have hcp : couponPhase st.coupons now req.coupon_code total =
        (none, 0, none) := by
      rw [hcode]
      exact couponPhase_invalid st.coupons now code total hcne hinv
    simp [hcp]
  · intro s hs
    simp only [hcode] at hs ⊢
    cases hfind : findActiveCoupon st.coupons code with
    | none =>
      rw [show couponPhase st.coupons now (some code) total = (none, 0, none)
        from couponPhase_invalid st.coupons now code total hcne (Or.inl hfind)]
        at hs
      exact absurd hs (by simp)
    | some c =>
      by_cases hchk : couponChecks c now = true
      · have hcp : couponPhase st.coupons now (some code) total =
            (some code, computeDiscount c total, some c.id) := by
          simp [couponPhase, hcne, hfind, hchk]
        rw [hcp] at hs
        simp only at hs
        have hsc : s = code := by simpa using hs.symm
        exact ⟨hsc, c, rfl, hchk, by simp [hcp]⟩
      · rw [show couponPhase st.coupons now (some code) total = (none, 0, none)
          from couponPhase_invalid st.coupons now code total hcne
            (Or.inr ⟨c, hfind, by simpa using hchk⟩)] at hs
        exact absurd hs (by simp)

/-- Witness for the amended C10 on the fixture run: the applied coupon's
code is snapshotted and its discount recorded. -/
theorem coupon_code_snapshot_witness :
    ∃ o : OrderRow, stA'.orders = stA.orders ++ [o] ∧
      ((findActiveCoupon stA.coupons "SAVE10" = none ∨
        (∃ c, findActiveCoupon stA.coupons "SAVE10" = some c ∧
          couponChecks c 0 = false)) → o.coupon_code = none) ∧
      (∀ s, o.coupon_code = some s → s = "SAVE10" ∧
        ∃ c, findActiveCoupon stA.coupons "SAVE10" = some c ∧
          couponChecks c 0 = true ∧
          o.discount_amount = computeDiscount c o.total_amount) :=
  coupon_code_snapshot stA 0 reqA true 1 stA' "SAVE10" rfl (by simp) runA

end PreorderApp
